import Mathlib

/-!
Shallow embedding of `spyplayer` (package `main`, file `spyplayer.go`, the
FIFO-pipes variant built around `startFifoPipes`).

Modelling conventions:
* Go `int` fields (`spotify.Numeric`: playback position and track duration in
  milliseconds) become `Int`; no arithmetic here can overflow a 64-bit int.
* Go `float64` arithmetic (the single division computing playback progress)
  is modelled exactly over `ℚ`.
* I/O effects are modelled by passing the outcome of each external interaction
  (API response, pipe open/read/write result) as an explicit argument; a
  function that can fail returns `Except String _`, errors carrying the
  diagnostic text the Go code formats via `log.Fatalf` / `log.Printf`.
* `log.Fatalf` (which terminates the process) is modelled by a dedicated
  `fatal` outcome constructor; `log.Printf`/`log.Println` by a list of log
  lines emitted by a loop iteration.
-/

namespace Spyplayer

/-- One artist entry of the playback response (`spotify.SimpleArtist`: only
the `Name` field is read by this program). -/
structure SimpleArtist where
  Name : String
deriving DecidableEq

/-- The album of the playback item (`spotify.SimpleAlbum`: only `Name` is
read). -/
structure SimpleAlbum where
  Name : String
deriving DecidableEq

/-- The track item of the playback response (`spotify.FullTrack`: the fields
this program reads). `Duration` is the total track length in milliseconds. -/
structure FullTrack where
  Name : String
  Duration : Int
  Artists : List SimpleArtist
  Album : SimpleAlbum
deriving DecidableEq

/-- The decoded body of `client.PlayerCurrentlyPlaying`
(`spotify.CurrentlyPlaying`): the current item (`nil` possible) and the
playback position `Progress` in milliseconds. A `nil` response pointer is
modelled by `Option CurrentlyPlaying` at the use site. -/
structure CurrentlyPlaying where
  Item : Option FullTrack
  Progress : Int
deriving DecidableEq

/-- `TrackDetails` from `spyplayer.go`: name, progress as a fraction
(float64 in Go, exact `ℚ` here), comma-separated artists, album name. -/
structure TrackDetails where
  Name : String
  Progress : ℚ
  Artists : String
  Album : String
deriving DecidableEq

/-- The progress computation inside `fetchTrackDetails`:
`var progress float64; if current.Item.Duration > 0 { progress =
float64(current.Progress) / float64(current.Item.Duration) }`. -/
def computeProgress (progress duration : Int) : ℚ :=
  if duration > 0 then (progress : ℚ) / (duration : ℚ) else 0

/-- One step of the artist loop body in `fetchTrackDetails`: the accumulator
carries the string built so far and the range index `i`; `if i > 0` appends
the separator before the artist name. -/
def joinStep (acc : String × Nat) (artist : SimpleArtist) : String × Nat :=
  ((if acc.2 > 0 then acc.1 ++ ", " else acc.1) ++ artist.Name, acc.2 + 1)

/-- The `for i, artist := range current.Item.Artists` loop of
`fetchTrackDetails`, building the comma-separated artist string. -/
def joinArtistNames (artists : List SimpleArtist) : String :=
  (artists.foldl joinStep ("", 0)).1

/-- `fetchTrackDetails`: the API call outcome is passed in (`Except` error,
or `Option CurrentlyPlaying` for a possibly-nil response). Returns the error
unchanged, `none` when no track is playing (`current == nil` or
`current.Item == nil`), and otherwise the formatted `TrackDetails`. -/
def fetchTrackDetails (apiResult : Except String (Option CurrentlyPlaying)) :
    Except String (Option TrackDetails) :=
  match apiResult with
  | .error e => .error e
  | .ok none => .ok none
  | .ok (some current) =>
    match current.Item with
    | none => .ok none
    | some item =>
      .ok (some
        { Name := item.Name
          Progress := computeProgress current.Progress item.Duration
          Artists := joinArtistNames item.Artists
          Album := item.Album.Name })

/-- The line formatting of `writeTrackDetailsToPipe`:
`fmt.Sprintf("%s - %s", details.Name, details.Artists)` when a track is
playing, the fixed sentinel otherwise. -/
def formatTrackLine (details : Option TrackDetails) : String :=
  match details with
  | some d => d.Name ++ " - " ++ d.Artists
  | none => "No track currently playing"

/-- `writeTrackDetailsToPipe`: opening the pipe (`os.OpenFile`) or writing
(`WriteString`) may fail; each failure outcome is an explicit argument and is
returned as the function's error, exactly as the Go code returns `err`. On
success the value records the string that was written. -/
def writeTrackDetailsToPipe (openErr writeErr : Option String)
    (details : Option TrackDetails) : Except String String :=
  match openErr with
  | some e => .error e
  | none =>
    match writeErr with
    | some e => .error e
    | none => .ok (formatTrackLine details)

/-- `token.Expiry.Before(time.Now())`: Go's `time.Time.Before` is a strict
comparison. Timestamps are modelled as integers (e.g. Unix nanoseconds). -/
def shouldRefreshToken (expiry now : Int) : Bool :=
  expiry < now

/-- The control-command string type `TrackControlAction` (a Go string type). -/
abbrev TrackControlAction := String

/-- Constant `Play = "play"`. -/
def Play : TrackControlAction := "play"

/-- Constant `Pause = "pause"`. -/
def Pause : TrackControlAction := "pause"

/-- Constant `Next = "next"`. -/
def Next : TrackControlAction := "next"

/-- Whether a character is whitespace for Go's `strings.TrimSpace`
(`unicode.IsSpace`), restricted to the Latin-1 range: space, `\t`, `\n`,
vertical tab, form feed, `\r`, NEL (U+0085) and NBSP (U+00A0). The inputs
relevant here are ASCII, where this coincides with Go's predicate. -/
def goIsSpace (c : Char) : Bool :=
  c = ' ' || c = '\t' || c = '\n' || c = Char.ofNat 11 || c = Char.ofNat 12 ||
    c = '\r' || c = Char.ofNat 0x85 || c = Char.ofNat 0xA0

/-- `strings.TrimSpace`: drop whitespace from both ends (byte payloads are
modelled as `List Char`; all relevant payloads are ASCII, one byte per
character). -/
def trimSpace (s : List Char) : List Char :=
  (((s.dropWhile goIsSpace).reverse).dropWhile goIsSpace).reverse

/-- `readTrackControlFromPipe`: opening the pipe or reading may fail (each
outcome an explicit argument, returned as the error exactly as in Go);
otherwise the read fills a 128-byte buffer (`buf[:n]`, modelled by
`payload.take 128`), is trimmed, and converted to a `TrackControlAction`. -/
def readTrackControlFromPipe (openErr readErr : Option String)
    (payload : List Char) : Except String TrackControlAction :=
  match openErr with
  | some e => .error e
  | none =>
    match readErr with
    | some e => .error e
    | none => .ok (String.mk (trimSpace (payload.take 128)))

/-- The three remote API calls the control loop can dispatch. -/
inductive ApiCall where
  | play
  | pause
  | next
deriving DecidableEq

/-- The `switch action` dispatch of the control loop: the three constants
map to their API calls, anything else falls through the switch (no call). -/
def dispatchAction (action : TrackControlAction) : Option ApiCall :=
  if action = Play then some .play
  else if action = Pause then some .pause
  else if action = Next then some .next
  else none

/-- The `log.Printf` message emitted when a dispatched API call fails. -/
def apiFailLog : ApiCall → String → String
  | .play, e => "failed to play track: " ++ e ++ "\n"
  | .pause, e => "failed to pause track: " ++ e ++ "\n"
  | .next, e => "failed to skip track: " ++ e ++ "\n"

/-- The `log.Println` message emitted when a dispatched API call succeeds. -/
def apiOkLog : ApiCall → String
  | .play => "playing track"
  | .pause => "paused track"
  | .next => "skipped track"

/-- Outcome of one publisher-loop iteration: `log.Fatalf` (process
termination) with its message, or the line written to the track pipe. -/
inductive LoopOutcome where
  | fatal (msg : String)
  | written (line : String)
deriving DecidableEq

/-- Result of one publisher-loop iteration: whether the token was refreshed
and how the iteration ended. -/
structure PublisherStep where
  refreshed : Bool
  outcome : LoopOutcome
deriving DecidableEq

/-- One iteration of the publisher goroutine loop in `startFifoPipes`:
refresh the token when `token.Expiry.Before(time.Now())`; fetch the track
details, `log.Fatalf` on error; write them to the pipe, `log.Fatalf` on
error. -/
def publisherLoopIteration (expiry now : Int)
    (apiResult : Except String (Option CurrentlyPlaying))
    (openErr writeErr : Option String) : PublisherStep :=
  { refreshed := shouldRefreshToken expiry now
    outcome :=
      match fetchTrackDetails apiResult with
      | .error e => .fatal ("unable to fetch track details: " ++ e)
      | .ok details =>
        match writeTrackDetailsToPipe openErr writeErr details with
        | .error e => .fatal ("unable to write to named pipe: " ++ e)
        | .ok line => .written line }

/-- Outcome of one control-loop iteration: `log.Fatalf` (process
termination) with its message, or falling through to the next blocking read. -/
inductive ControlOutcome where
  | fatal (msg : String)
  | looped
deriving DecidableEq

/-- Result of one control-loop iteration: how it ended, whether the token
was refreshed, the API calls issued, and the log lines emitted. -/
structure ControlStep where
  outcome : ControlOutcome
  refreshed : Bool
  calls : List ApiCall
  logs : List String
deriving DecidableEq

/-- One iteration of the control loop in `startFifoPipes`: read an action
from the control pipe (`log.Fatalf "unable to fetch track details: %v"` on
error — the Go code reuses that message); refresh the token when
`token.Expiry.Before(time.Now())`; dispatch the action, logging and
swallowing API errors. -/
def controlLoopIteration (openErr readErr : Option String)
    (payload : List Char) (expiry now : Int) (apiErr : Option String) :
    ControlStep :=
  match readTrackControlFromPipe openErr readErr payload with
  | .error e =>
    { outcome := .fatal ("unable to fetch track details: " ++ e)
      refreshed := false
      calls := []
      logs := [] }
  | .ok action =>
    let refreshed := shouldRefreshToken expiry now
    match dispatchAction action with
    | none => { outcome := .looped, refreshed, calls := [], logs := [] }
    | some c =>
      match apiErr with
      | some e =>
        { outcome := .looped, refreshed, calls := [c],
          logs := [apiFailLog c e] }
      | none =>
        { outcome := .looped, refreshed, calls := [c], logs := [apiOkLog c] }

/-- Number of occurrences of the two-character separator `", "` in a
character list (occurrences cannot overlap, as the two characters differ). -/
def countSep : List Char → Nat
  | a :: b :: rest => (if a = ',' ∧ b = ' ' then 1 else 0) + countSep (b :: rest)
  | _ => 0

/-- Modelled from the spec: the formatting policy "artist names joined with
`\", \"`; no escaping of special characters; no truncation", as a direct
recursive definition, used to compare the source's loop against the spec. -/
def specArtistString : List String → String
  | [] => ""
  | [n] => n
  | n :: rest => n ++ ", " ++ specArtistString rest

/-- Helper for relating the source's fold to `specArtistString`: the suffix
contributed by the artists after the first one. -/
def specTailString : List String → String
  | [] => ""
  | n :: rest => ", " ++ n ++ specTailString rest

/-- Observation helper: whether a publisher-loop outcome is a `log.Fatalf`
termination. -/
def LoopOutcome.isFatal : LoopOutcome → Bool
  | .fatal _ => true
  | .written _ => false

/-- Observation helper: whether a control-loop outcome is a `log.Fatalf`
termination. -/
def ControlOutcome.isFatal : ControlOutcome → Bool
  | .fatal _ => true
  | .looped => false

theorem countSep_cons_of_ne (c : Char) (l : List Char) (h : c ≠ ',') :
    countSep (c :: l) = countSep l := by
  cases l with
  | nil => rfl
  | cons b rest => simp [countSep, h]

theorem countSep_append_comma (l₁ l₂ : List Char) :
    countSep (l₁ ++ ',' :: l₂) = countSep l₁ + countSep (',' :: l₂) := by
  induction l₁ with
  | nil => simp [countSep]
  | cons c t ih =>
    cases t with
    | nil =>
      have : (c = ',' ∧ ',' = ' ') = False := by simp
      simp [countSep, this]
    | cons d t' =>
      simp only [List.cons_append] at ih ⊢
      simp only [countSep] at ih ⊢
      omega

theorem countSep_sep (l : List Char) :
    countSep (',' :: ' ' :: l) = 1 + countSep l := by
  have h := countSep_cons_of_ne ' ' l (by decide)
  simp [countSep, h]

theorem foldl_joinStep (rest : List SimpleArtist) (acc : String) (k : Nat)
    (hk : 0 < k) :
    (rest.foldl joinStep (acc, k)).1 =
      acc ++ specTailString (rest.map SimpleArtist.Name) := by
  induction rest generalizing acc k with
  | nil => simp [specTailString, String.append_empty]
  | cons a t ih =>
    have hstep : joinStep (acc, k) a = (acc ++ ", " ++ a.Name, k + 1) := by
      simp [joinStep, hk]
    calc (List.foldl joinStep (acc, k) (a :: t)).1
        = (List.foldl joinStep (acc ++ ", " ++ a.Name, k + 1) t).1 := by
          rw [List.foldl_cons, hstep]
      _ = (acc ++ ", " ++ a.Name) ++ specTailString (t.map SimpleArtist.Name) := by
          exact ih _ _ (Nat.succ_pos k)
      _ = acc ++ specTailString ((a :: t).map SimpleArtist.Name) := by
          simp [specTailString, String.append_assoc]

theorem specArtistString_eq_tail (n : String) (names : List String) :
    specArtistString (n :: names) = n ++ specTailString names := by
  induction names generalizing n with
  | nil => simp [specArtistString, specTailString, String.append_empty]
  | cons m r ih =>
    calc specArtistString (n :: m :: r)
        = n ++ ", " ++ specArtistString (m :: r) := by
          simp [specArtistString]
      _ = n ++ ", " ++ (m ++ specTailString r) := by rw [ih]
      _ = n ++ specTailString (m :: r) := by
          simp [specTailString, String.append_assoc]

theorem joinArtistNames_eq_spec (artists : List SimpleArtist) :
    joinArtistNames artists = specArtistString (artists.map SimpleArtist.Name) := by
  cases artists with
  | nil => rfl
  | cons a t =>
    have h1 : joinStep ("", 0) a = (a.Name, 1) := by
      simp [joinStep, String.empty_append]
    calc joinArtistNames (a :: t)
        = (List.foldl joinStep (a.Name, 1) t).1 := by
          simp [joinArtistNames, List.foldl_cons, h1]
      _ = a.Name ++ specTailString (t.map SimpleArtist.Name) := by
          exact foldl_joinStep t a.Name 1 Nat.one_pos
      _ = specArtistString ((a :: t).map SimpleArtist.Name) := by
          rw [List.map_cons, specArtistString_eq_tail]

theorem countSep_specArtistString (names : List String)
    (h : ∀ n ∈ names, countSep n.data = 0) :
    countSep (specArtistString names).data = names.length - 1 := by
  induction names with
  | nil => rfl
  | cons n rest ih =>
    cases rest with
    | nil =>
      have hn := h n (by simp)
      simpa [specArtistString] using hn
    | cons m r =>
      have hn := h n (by simp)
      have hrest : countSep (specArtistString (m :: r)).data = (m :: r).length - 1 := by
        refine ih ?_
        intro x hx
        exact h x (by simp [hx])
      have hdata : (specArtistString (n :: m :: r)).data =
          n.data ++ ',' :: ' ' :: (specArtistString (m :: r)).data := by
        show (n ++ ", " ++ specArtistString (m :: r)).data = _
        simp [String.data_append, String.append_assoc]
      rw [hdata, countSep_append_comma, countSep_sep, hn, hrest]
      simp
      omega

/-- C2: for every playing track, the line written to the track pipe by
`writeTrackDetailsToPipe` is the track name, the literal separator `" - "`,
then the comma-joined artist string; in particular a track named "Song A"
with artists ["X","Y"] publishes exactly "Song A - X, Y". -/
theorem C2_published_line (d : TrackDetails) :
    writeTrackDetailsToPipe none none (some d) =
      Except.ok (d.Name ++ " - " ++ d.Artists) ∧
    writeTrackDetailsToPipe none none
      (some { Name := "Song A", Progress := 0,
              Artists := joinArtistNames [{ Name := "X" }, { Name := "Y" }],
              Album := "" }) =
      Except.ok "Song A - X, Y" := by
  exact ⟨rfl, rfl⟩

/-- C5: every control-pipe input that, after trimming surrounding
whitespace, is not one of the literal strings "play", "pause", "next" issues
no API call, and the loop proceeds to the next blocking read (`looped`)
without raising an error (no log output either). -/
theorem C5_unknown_command_ignored (payload : List Char) (expiry now : Int)
    (apiErr : Option String)
    (h : String.mk (trimSpace (payload.take 128)) ≠ Play ∧
         String.mk (trimSpace (payload.take 128)) ≠ Pause ∧
         String.mk (trimSpace (payload.take 128)) ≠ Next) :
    (controlLoopIteration none none payload expiry now apiErr).calls = [] ∧
    (controlLoopIteration none none payload expiry now apiErr).outcome =
      ControlOutcome.looped ∧
    (controlLoopIteration none none payload expiry now apiErr).logs = [] := by
  obtain ⟨h1, h2, h3⟩ := h
  have hdisp : dispatchAction (String.mk (trimSpace (payload.take 128))) = none := by
    simp [dispatchAction, h1, h2, h3]
  simp [controlLoopIteration, readTrackControlFromPipe, hdisp]

/-- C5 witness: the input "stop" is ignored. -/
theorem C5_unknown_command_ignored_witness :
    (controlLoopIteration none none "stop".data 0 0 none).calls = [] ∧
    (controlLoopIteration none none "stop".data 0 0 none).outcome =
      ControlOutcome.looped ∧
    (controlLoopIteration none none "stop".data 0 0 none).logs = [] :=
  C5_unknown_command_ignored "stop".data 0 0 none (by decide)

/-- C6: whenever `fetchTrackDetails` reports no track playing, the line
published to the track pipe is exactly the fixed sentinel string. -/
theorem C6_no_track_sentinel (expiry now : Int)
    (apiResult : Except String (Option CurrentlyPlaying))
    (h : fetchTrackDetails apiResult = Except.ok none) :
    (publisherLoopIteration expiry now apiResult none none).outcome =
      LoopOutcome.written "No track currently playing" := by
  simp [publisherLoopIteration, h, writeTrackDetailsToPipe, formatTrackLine]

/-- C6 witness: a `nil` playback response publishes the sentinel. -/
theorem C6_no_track_sentinel_witness :
    (publisherLoopIteration 0 0 (Except.ok none) none none).outcome =
      LoopOutcome.written "No track currently playing" :=
  C6_no_track_sentinel 0 0 (Except.ok none) rfl

/-- C7: the control payload "  pause\n" is read (at most 128 bytes),
trimmed to the action "pause", exactly one pause API call is issued, and
the loop continues listening. -/
theorem C7_pause_scenario (expiry now : Int) :
    readTrackControlFromPipe none none "  pause\n".data = Except.ok Pause ∧
    ("  pause\n".data.take 128).length ≤ 128 ∧
    (controlLoopIteration none none "  pause\n".data expiry now none).calls =
      [ApiCall.pause] ∧
    (controlLoopIteration none none "  pause\n".data expiry now none).outcome =
      ControlOutcome.looped := by
  have hread : readTrackControlFromPipe none none "  pause\n".data =
      Except.ok Pause := by rfl
  have hdisp : dispatchAction Pause = some ApiCall.pause := by decide
  refine ⟨hread, by decide, ?_, ?_⟩ <;>
    simp [controlLoopIteration, hread, hdisp]

/-- C8: in the publisher loop, every error returned by the playback fetch or
by the pipe write (open or write failure) ends the iteration in a
`log.Fatalf` termination — no retry or recovery. -/
theorem C8_publisher_errors_fatal (expiry now : Int)
    (apiResult : Except String (Option CurrentlyPlaying))
    (openErr writeErr : Option String)
    (h : (∃ e, apiResult = Except.error e) ∨ openErr ≠ none ∨ writeErr ≠ none) :
    (publisherLoopIteration expiry now apiResult openErr writeErr).outcome.isFatal
      = true := by
  cases apiResult with
  | error e =>
    simp [publisherLoopIteration, fetchTrackDetails, LoopOutcome.isFatal]
  | ok cur =>
    obtain ⟨details, hd⟩ : ∃ d, fetchTrackDetails (Except.ok cur) = Except.ok d := by
      cases cur with
      | none => exact ⟨none, rfl⟩
      | some c =>
        cases hI : c.Item with
        | none => exact ⟨none, by simp [fetchTrackDetails, hI]⟩
        | some item =>
          exact ⟨some { Name := item.Name,
                        Progress := computeProgress c.Progress item.Duration,
                        Artists := joinArtistNames item.Artists,
                        Album := item.Album.Name },
                 by simp [fetchTrackDetails, hI]⟩
    cases openErr with
    | some e =>
      simp [publisherLoopIteration, hd, writeTrackDetailsToPipe, LoopOutcome.isFatal]
    | none =>
      have hw : writeErr ≠ none := by
        rcases h with ⟨e, he⟩ | h | h
        · exact absurd he (by simp)
        · exact absurd rfl h
        · exact h
      obtain ⟨e, rfl⟩ := Option.ne_none_iff_exists'.mp hw
      simp [publisherLoopIteration, hd, writeTrackDetailsToPipe, LoopOutcome.isFatal]

/-- C8 witness: a failing fetch is fatal. -/
theorem C8_publisher_errors_fatal_witness :
    (publisherLoopIteration 0 0 (Except.error "boom") none none).outcome.isFatal
      = true :=
  C8_publisher_errors_fatal 0 0 (Except.error "boom") none none
    (Or.inl ⟨"boom", rfl⟩)

/-- C9: in the control loop, an error returned by a dispatched API call is
logged and swallowed: the loop continues to its next read (`looped`, not
fatal), the single call was issued, and the failure log line is emitted. -/
theorem C9_api_error_logged_and_swallowed (payload : List Char)
    (expiry now : Int) (e : String) (c : ApiCall)
    (h : dispatchAction (String.mk (trimSpace (payload.take 128))) = some c) :
    (controlLoopIteration none none payload expiry now (some e)).outcome =
      ControlOutcome.looped ∧
    (controlLoopIteration none none payload expiry now (some e)).calls = [c] ∧
    (controlLoopIteration none none payload expiry now (some e)).logs =
      [apiFailLog c e] := by
  simp [controlLoopIteration, readTrackControlFromPipe, h]

/-- C9 witness: a failing play call is logged and the loop continues. -/
theorem C9_api_error_logged_and_swallowed_witness :
    (controlLoopIteration none none "play".data 0 0 (some "boom")).outcome =
      ControlOutcome.looped ∧
    (controlLoopIteration none none "play".data 0 0 (some "boom")).calls =
      [ApiCall.play] ∧
    (controlLoopIteration none none "play".data 0 0 (some "boom")).logs =
      [apiFailLog ApiCall.play "boom"] :=
  C9_api_error_logged_and_swallowed "play".data 0 0 "boom" ApiCall.play (by decide)

/-- C10: if opening or reading the control pipe itself fails, the control
loop terminates the whole process fatally (and dispatches no API call)
rather than logging and continuing. -/
theorem C10_pipe_error_fatal (openErr readErr : Option String)
    (payload : List Char) (expiry now : Int) (apiErr : Option String)
    (h : openErr ≠ none ∨ readErr ≠ none) :
    (controlLoopIteration openErr readErr payload expiry now apiErr).outcome.isFatal
      = true ∧
    (controlLoopIteration openErr readErr payload expiry now apiErr).calls = [] := by
  cases openErr with
  | some e =>
    simp [controlLoopIteration, readTrackControlFromPipe, ControlOutcome.isFatal]
  | none =>
    have hr : readErr ≠ none := by
      rcases h with h | h
      · exact absurd rfl h
      · exact h
    obtain ⟨e, rfl⟩ := Option.ne_none_iff_exists'.mp hr
    simp [controlLoopIteration, readTrackControlFromPipe, ControlOutcome.isFatal]

/-- C10 witness: a failing pipe open is fatal. -/
theorem C10_pipe_error_fatal_witness :
    (controlLoopIteration (some "open failed") none "play".data 0 0 none).outcome.isFatal
      = true ∧
    (controlLoopIteration (some "open failed") none "play".data 0 0 none).calls
      = [] :=
  C10_pipe_error_fatal (some "open failed") none "play".data 0 0 none
    (Or.inl (by simp))

/-- C4 counterexample: at the instant where the stored expiry equals the
current time ("at or before" per the claim), neither loop refreshes the
token, because the code's `token.Expiry.Before(time.Now())` is a strict
comparison. -/
theorem C4_refresh_counterexample :
    (0:Int) ≤ 0 ∧
    (publisherLoopIteration 0 0 (Except.ok none) none none).refreshed = false ∧
    (controlLoopIteration none none "play".data 0 0 none).refreshed = false := by
  refine ⟨le_refl 0, ?_, ?_⟩ <;> rfl

/-- C4 (amended): in each loop iteration that reaches the check, the token
refresh happens if and only if the stored expiry timestamp is strictly
before the current time at the point of the check. -/
theorem C4_refresh_iff_amended (expiry now : Int)
    (apiResult : Except String (Option CurrentlyPlaying))
    (openErr writeErr : Option String) (payload : List Char)
    (apiErr : Option String) :
    ((publisherLoopIteration expiry now apiResult openErr writeErr).refreshed = true
      ↔ expiry < now) ∧
    ((controlLoopIteration none none payload expiry now apiErr).refreshed = true
      ↔ expiry < now) := by
  constructor
  · simp [publisherLoopIteration, shouldRefreshToken]
  · cases hdisp : dispatchAction (String.mk (trimSpace (payload.take 128))) with
    | none =>
      simp [controlLoopIteration, readTrackControlFromPipe, hdisp,
        shouldRefreshToken]
    | some c =>
      cases apiErr <;>
        simp [controlLoopIteration, readTrackControlFromPipe, hdisp,
          shouldRefreshToken]

/-- C1 counterexample: a playback response whose reported position (2000 ms)
exceeds the track duration (1000 ms) makes `fetchTrackDetails` compute
Progress = 2, which does not lie in [0,1] — the claim's unconditional
"lies in [0,1]" is false. -/
theorem C1_progress_counterexample :
    fetchTrackDetails (Except.ok (some
      { Item := some { Name := "t", Duration := 1000, Artists := [],
                       Album := { Name := "a" } },
        Progress := 2000 })) =
      Except.ok (some { Name := "t", Progress := 2, Artists := "", Album := "a" }) ∧
    ¬ ((2:ℚ) ≤ 1) := by
  constructor
  · simp [fetchTrackDetails, computeProgress, joinArtistNames]
    norm_num
  · norm_num

/-- C1 (amended): for every playback response with a track item, if the
duration is positive then Progress equals position/duration, and it lies in
[0,1] provided the reported position is between 0 and the duration; if the
duration is 0, Progress is 0 (the division is guarded, so it never runs). -/
theorem C1_progress_amended (current : CurrentlyPlaying) (item : FullTrack)
    (d : TrackDetails) (hItem : current.Item = some item)
    (hd : fetchTrackDetails (Except.ok (some current)) = Except.ok (some d)) :
    (0 < item.Duration →
      d.Progress = (current.Progress : ℚ) / (item.Duration : ℚ) ∧
      (0 ≤ current.Progress → current.Progress ≤ item.Duration →
        0 ≤ d.Progress ∧ d.Progress ≤ 1)) ∧
    (item.Duration = 0 → d.Progress = 0) := by
  simp only [fetchTrackDetails, hItem, Except.ok.injEq, Option.some.injEq] at hd
  subst hd
  constructor
  · intro hdur
    have hpos : (0:ℚ) < (item.Duration : ℚ) := by exact_mod_cast hdur
    refine ⟨by simp [computeProgress, hdur], ?_⟩
    intro h0 hle
    constructor
    · simp only [computeProgress, hdur, if_pos]
      exact div_nonneg (by exact_mod_cast h0) (le_of_lt hpos)
    · simp only [computeProgress, hdur, if_pos]
      exact (div_le_one hpos).mpr (by exact_mod_cast hle)
  · intro h0
    simp [computeProgress, h0]

/-- C1 witness: position 50 of duration 200 yields a progress in [0,1]. -/
theorem C1_progress_amended_witness :
    (0:ℚ) ≤ computeProgress 50 200 ∧ computeProgress 50 200 ≤ 1 := by
  have h := C1_progress_amended
    { Item := some { Name := "s", Duration := 200, Artists := [],
                     Album := { Name := "a" } },
      Progress := 50 }
    { Name := "s", Duration := 200, Artists := [], Album := { Name := "a" } }
    { Name := "s", Progress := computeProgress 50 200,
      Artists := joinArtistNames [], Album := "a" }
    rfl rfl
  exact (h.1 (by norm_num)).2 (by norm_num) (by norm_num)

/-- C3 counterexample: artist names are embedded unescaped, so a single
artist named "X, Y" (N = 1) yields one occurrence of the separator `", "`
in the formatted string, not N - 1 = 0. -/
theorem C3_separator_counterexample :
    countSep (joinArtistNames [{ Name := "X, Y" }]).data ≠
      [({ Name := "X, Y" } : SimpleArtist)].length - 1 := by
  decide

/-- C3 (amended): the formatted artist string is the input names joined in
order with `", "`, unescaped and untruncated (it equals the spec's join
policy); and provided no artist name itself contains the separator `", "`,
the string contains exactly N - 1 occurrences of it for an input of
length N. -/
theorem C3_artists_join_amended (artists : List SimpleArtist) :
    joinArtistNames artists = specArtistString (artists.map SimpleArtist.Name) ∧
    ((∀ a ∈ artists, countSep a.Name.data = 0) →
      countSep (joinArtistNames artists).data = artists.length - 1) := by
  refine ⟨joinArtistNames_eq_spec artists, ?_⟩
  intro h
  rw [joinArtistNames_eq_spec]
  have hc := countSep_specArtistString (artists.map SimpleArtist.Name) ?_
  · simpa using hc
  · intro n hn
    obtain ⟨a, ha, rfl⟩ := List.mem_map.mp hn
    exact h a ha

/-- C3 witness: ["X","Y"] joins to "X, Y" with exactly one separator. -/
theorem C3_artists_join_amended_witness :
    joinArtistNames [{ Name := "X" }, { Name := "Y" }] =
      specArtistString ["X", "Y"] ∧
    countSep (joinArtistNames [{ Name := "X" }, { Name := "Y" }]).data = 1 := by
  have h := C3_artists_join_amended [{ Name := "X" }, { Name := "Y" }]
  exact ⟨h.1, h.2 (by decide)⟩

end Spyplayer
